import Mathlib

/-!
Shallow embedding of `sessions.go` from go-floki/sessions: the Session
key/value bag with flash messages and dirty tracking, the per-request
Registry with its lazy `Get` and aggregating `Save`, and the `MultiError`
composite error type.

Modelling conventions:
* Go `interface\x7b\x7d` map keys are `GoKey` (Go map keys must be comparable,
  so no slices), map values are `GoValue` (which may be a `[]interface\x7b\x7d`
  slice, the representation of a flash sequence).
* `error` values are `Option String` (`none` = nil, `some msg` = an error
  whose `Error()` message is `msg`).
* A Go panic (failed type assertion `v.([]interface\x7b\x7d)`, nil-pointer call)
  is modelled by an `Option` result being `none`.
* `Store` interface values are identifiers (`StoreId`) resolved through an
  environment `StoreId → StoreBehavior`; a nil `Store` is `Option.none`.
* Pointer identity of `*Session`, which Registry claims are about, is
  modelled by a heap: the Registry state carries `heap : List Session` and
  sessions are referred to by index.
-/

namespace GoFloki

/-- Go map keys stored in `Session.Values` (comparable `interface\x7b\x7d` values). -/
inductive GoKey where
  | kNil
  | kStr (s : String)
  | kInt (n : Int)
  | kBool (b : Bool)
  deriving DecidableEq, Repr

/-- Go `interface\x7b\x7d` values stored in `Session.Values`. `vSlice` is a
`[]interface\x7b\x7d` value, the representation used for flash sequences. -/
inductive GoValue where
  | vNil
  | vStr (s : String)
  | vInt (n : Int)
  | vBool (b : Bool)
  | vSlice (l : List GoValue)
  deriving Repr

/-- The default flashes key, `const flashesKey = "_flash"`. -/
def flashesKey : String := "_flash"

/-- `map[interface\x7b\x7d]interface\x7b\x7d` as an association list with unique keys. -/
abbrev Values := List (GoKey × GoValue)

/-- Map lookup `s.Values[key]` in comma-ok form: `none` when absent. -/
def lookupValues : Values → GoKey → Option GoValue
  | [], _ => none
  | (k', v') :: t, k => if k' = k then some v' else lookupValues t k

/-- Map assignment `s.Values[key] = val`. -/
def insertValues : Values → GoKey → GoValue → Values
  | [], k, v => [(k, v)]
  | (k', v') :: t, k, v =>
    if k' = k then (k, v) :: t else (k', v') :: insertValues t k v

/-- Map deletion `delete(s.Values, key)`. -/
def eraseValues : Values → GoKey → Values
  | [], _ => []
  | (k', v') :: t, k =>
    if k' = k then eraseValues t k else (k', v') :: eraseValues t k

/-- Identifier of a `Store` interface value (resolved via an environment). -/
abbrev StoreId := Nat

/-- `Options` stores configuration for a session or session store
(subset of `http.Cookie` fields). Opaque to the core. -/
structure Options where
  Path : String
  Domain : String
  MaxAge : Int
  Secure : Bool
  HttpOnly : Bool
  deriving Repr

/-- `Session` stores the values and optional configuration for a session. -/
structure Session where
  ID : String
  Values : Values
  options : Option Options
  IsNew : Bool
  store : Option StoreId
  name : String
  dirty : Bool
  deriving Repr

/-- `NewSession` is called by session stores to create a new session instance. -/
def NewSession (store : Option StoreId) (name : String) : Session :=
  { ID := "", Values := [], options := none, IsNew := false,
    store := store, name := name, dirty := false }

/-- The flash key selected from the optional variadic argument
(`"_flash"` when not given). -/
def flashKey (vars : List String) : String :=
  match vars with
  | [] => flashesKey
  | k :: _ => k

/-- `Session.Flashes` returns a slice of flash messages from the session,
dropping them from the map. The stored value is cast with
`v.([]interface\x7b\x7d)`; a failed assertion panics (`none`). -/
def Session.Flashes (s : Session) (vars : List String) :
    Option (List GoValue × Session) :=
  match lookupValues s.Values (GoKey.kStr (flashKey vars)) with
  | some v =>
    match v with
    | GoValue.vSlice l =>
      some (l, { s with Values := eraseValues s.Values (GoKey.kStr (flashKey vars)) })
    | _ => none
  | none => some ([], s)

/-- `Session.AddFlash` adds a flash message to the session, appending to the
sequence already stored under the key (cast with `v.([]interface\x7b\x7d)`,
panicking on failure). Note: the source does not touch `dirty` here. -/
def Session.AddFlash (s : Session) (value : GoValue) (vars : List String) :
    Option Session :=
  match lookupValues s.Values (GoKey.kStr (flashKey vars)) with
  | some v =>
    match v with
    | GoValue.vSlice l =>
      some { s with
        Values := insertValues s.Values (GoKey.kStr (flashKey vars))
          (GoValue.vSlice (l ++ [value])) }
    | _ => none
  | none =>
    some { s with
      Values := insertValues s.Values (GoKey.kStr (flashKey vars))
        (GoValue.vSlice [value]) }

/-- `Session.Get` returns `s.Values[key]`; Go map indexing yields the nil
interface value when the key is absent. -/
def Session.Get (s : Session) (key : GoKey) : GoValue :=
  (lookupValues s.Values key).getD GoValue.vNil

/-- `Session.Set` stores the value and marks the session dirty. -/
def Session.Set (s : Session) (key : GoKey) (val : GoValue) : Session :=
  { s with Values := insertValues s.Values key val, dirty := true }

/-- `Session.Delete` removes the key and marks the session dirty. -/
def Session.Delete (s : Session) (key : GoKey) : Session :=
  { s with Values := eraseValues s.Values key, dirty := true }

/-- Behaviour of a `Store` interface value: `New(c, name)` produces a session
and an error; `Save(c, session)` persists a session and may fail. The request
context is opaque to the core and omitted. -/
structure StoreBehavior where
  new : String → Session × Option String
  save : Session → Option String

/-- `Session.Save` delegates to `store.Save(c, s)`; calling through a nil
store interface panics (`none`). The session itself is returned unchanged:
the core never mutates it here. -/
def Session.Save (env : StoreId → StoreBehavior) (s : Session) :
    Option (Option String × Session) :=
  match s.store with
  | none => none
  | some sid => some ((env sid).save s, s)

/-- `sessionInfo` stores a session tracked by the registry: a pointer to the
session (heap index) and the creation error. -/
structure sessionInfo where
  s : Nat
  e : Option String
  deriving Repr

/-- `Registry` stores sessions used during a request: the `name → sessionInfo`
map, together with the heap of session objects the pointers refer to. -/
structure Registry where
  sessions : List (String × sessionInfo)
  heap : List Session

/-- Lookup in the registry's `sessions` map (comma-ok form). -/
def lookupSessions : List (String × sessionInfo) → String → Option sessionInfo
  | [], _ => none
  | (n', i) :: t, n => if n' = n then some i else lookupSessions t n

/-- Read a session object through a pointer (out-of-range reads return a
placeholder; all registry-created pointers are in range). -/
def heapGet : List Session → Nat → Session
  | [], _ => NewSession none ""
  | x :: _, 0 => x
  | _ :: t, n + 1 => heapGet t n

/-- Update the session object a pointer refers to. -/
def heapUpdate : List Session → Nat → (Session → Session) → List Session
  | [], _, _ => []
  | x :: t, 0, f => f x :: t
  | x :: t, n + 1, f => x :: heapUpdate t n f

/-- Result of `Registry.Get`: the returned `*Session` (pointer) and error,
the updated registry state, and whether `store.New` was invoked during the
call (instrumentation for the at-most-once property). -/
structure GetResult where
  session : Nat
  err : Option String
  state : Registry
  calledNew : Bool

/-- `Registry.Get` registers and returns a session for the given name and
session store: a cached entry (session pointer and creation error, even a
failed creation) is returned without calling the store again; otherwise
`store.New` runs once, the session's `name` is set and the pair is cached.
In both branches the final `session.store = store` rebinds the store. -/
def Registry.Get (env : StoreId → StoreBehavior) (r : Registry)
    (store : StoreId) (name : String) : GetResult :=
  match lookupSessions r.sessions name with
  | some info =>
    { session := info.s, err := info.e,
      state := { r with
        heap := heapUpdate r.heap info.s (fun x => { x with store := some store }) },
      calledNew := false }
  | none =>
    let res := (env store).new name
    let sess := { res.1 with name := name }
    let ptr := r.heap.length
    { session := ptr, err := res.2,
      state :=
        { sessions := r.sessions ++ [(name, { s := ptr, e := res.2 })],
          heap := heapUpdate (r.heap ++ [sess]) ptr
            (fun x => { x with store := some store }) },
      calledNew := true }

/-- Go's `%q` on a plain session name (no characters needing escapes). -/
def goQuote (s : String) : String := "\"" ++ s ++ "\""

/-- One iteration of the `Registry.Save` loop: the failure recorded for a
tracked entry, or `none` when its store saves successfully. -/
def saveFailure (env : StoreId → StoreBehavior) (heap : List Session)
    (entry : String × sessionInfo) : Option String :=
  let session := heapGet heap entry.2.s
  match session.store with
  | none => some ("sessions: missing store for session " ++ goQuote entry.1)
  | some sid =>
    match (env sid).save session with
    | some e =>
      some ("sessions: error saving session " ++ goQuote entry.1 ++ " -- " ++ e)
    | none => none

/-- Loop body of `Registry.Save`: the accumulator keeps the `MultiError`
messages appended so far, plus (instrumentation) the pointers of the sessions
whose `store.Save` has been invoked. -/
def saveStep (env : StoreId → StoreBehavior) (heap : List Session)
    (acc : List String × List Nat) (entry : String × sessionInfo) :
    List String × List Nat :=
  let session := heapGet heap entry.2.s
  match session.store with
  | none =>
    (acc.1 ++ ["sessions: missing store for session " ++ goQuote entry.1], acc.2)
  | some sid =>
    match (env sid).save session with
    | some e =>
      (acc.1 ++ ["sessions: error saving session " ++ goQuote entry.1 ++ " -- " ++ e],
       acc.2 ++ [entry.2.s])
    | none => (acc.1, acc.2 ++ [entry.2.s])

/-- `Registry.Save` saves all sessions registered for the current request,
recording a failure per entry with a missing store or a failing `store.Save`,
and returns the accumulated `MultiError` when non-nil, else nil (`none`).
The second component lists the sessions whose `store.Save` was invoked. -/
def Registry.Save (env : StoreId → StoreBehavior) (r : Registry) :
    Option (List String) × List Nat :=
  let res := r.sessions.foldl (saveStep env r.heap) ([], [])
  (if res.1.isEmpty then none else some res.1, res.2)

/-- `MultiError` stores multiple errors (`[]error`, slots may be nil). -/
abbrev MultiError := List (Option String)

/-- Loop body of `MultiError.Error`: keeps the first non-nil error's message
and the count of non-nil errors. -/
def errStep (acc : String × Nat) (e : Option String) : String × Nat :=
  match e with
  | none => acc
  | some msg => (if acc.2 = 0 then msg else acc.1, acc.2 + 1)

/-- The `switch n` of `MultiError.Error`, applied to the accumulated
(first message, non-nil count) pair; the default case is
`fmt.Sprintf("%s (and %d other errors)", s, n-1)`. -/
def errRender : String × Nat → String
  | (_, 0) => "(0 errors)"
  | (s, 1) => s
  | (s, 2) => s ++ " (and 1 other error)"
  | (s, n + 3) => s ++ " (and " ++ toString (n + 2) ++ " other errors)"

/-- `MultiError.Error` renders the composite error message. -/
def MultiError.Error (m : MultiError) : String :=
  errRender (m.foldl errStep ("", 0))

/-! ### Concrete stores and registries used to instantiate the theorems -/

/-- A store whose `New` and `Save` both fail. -/
def failingStore : StoreBehavior :=
  { new := fun name => (NewSession none name, some "store broken"),
    save := fun _ => some "save failed" }

/-- A store whose `New` and `Save` both succeed. -/
def okStore : StoreBehavior :=
  { new := fun name => (NewSession none name, none),
    save := fun _ => none }

/-- Environment resolving store id 0 to the succeeding store and every other
id to the failing store. -/
def envW : StoreId → StoreBehavior :=
  fun sid => if sid = 0 then okStore else failingStore

/-- Environment where every store fails. -/
def envFail : StoreId → StoreBehavior := fun _ => failingStore

/-- The empty registry (fresh request). -/
def reg0 : Registry := { sessions := [], heap := [] }

/-- A registry tracking three sessions: one with no bound store, one bound
to the failing store, one bound to the succeeding store. -/
def regW : Registry :=
  { sessions := [("a", { s := 0, e := none }), ("b", { s := 1, e := none }),
                 ("c", { s := 2, e := none })],
    heap := [NewSession none "a", NewSession (some 1) "b",
             NewSession (some 0) "c"] }

/-- A registry with a single tracked session bound to store 5. -/
def regOne : Registry :=
  { sessions := [("a", { s := 0, e := none })],
    heap := [NewSession (some 5) "a"] }

/-- A session that has been marked dirty by a `Set`. -/
def dirtySession : Session :=
  (NewSession none "n").Set (GoKey.kStr "k") (GoValue.vStr "v")

/-! ### Helper lemmas about the map and heap operations -/

theorem lookupValues_insertValues_self (vs : Values) (k : GoKey) (v : GoValue) :
    lookupValues (insertValues vs k v) k = some v := by
  induction vs with
  | nil => simp [insertValues, lookupValues]
  | cons p t ih =>
    obtain ⟨k', v'⟩ := p
    by_cases h : k' = k
    · simp [insertValues, lookupValues, h]
    · simp [insertValues, lookupValues, h, ih]

theorem lookupValues_insertValues_ne (vs : Values) (k k' : GoKey) (v : GoValue)
    (h : k' ≠ k) : lookupValues (insertValues vs k v) k' = lookupValues vs k' := by
  have h' : ¬k = k' := fun hh => h hh.symm
  induction vs with
  | nil => simp [insertValues, lookupValues, h']
  | cons p t ih =>
    obtain ⟨k₀, v₀⟩ := p
    by_cases h₀ : k₀ = k
    · subst h₀
      simp [insertValues, lookupValues, h']
    · simp [insertValues, lookupValues, h₀, ih]

theorem lookupValues_eraseValues_self (vs : Values) (k : GoKey) :
    lookupValues (eraseValues vs k) k = none := by
  induction vs with
  | nil => simp [eraseValues, lookupValues]
  | cons p t ih =>
    obtain ⟨k', v'⟩ := p
    by_cases h : k' = k
    · simp [eraseValues, h, ih]
    · simp [eraseValues, lookupValues, h, ih]

theorem lookupSessions_append_none (l : List (String × sessionInfo))
    (name : String) (i : sessionInfo) (h : lookupSessions l name = none) :
    lookupSessions (l ++ [(name, i)]) name = some i := by
  induction l with
  | nil => simp [lookupSessions]
  | cons p t ih =>
    obtain ⟨n', i'⟩ := p
    by_cases hn : n' = name
    · simp [lookupSessions, hn] at h
    · simp [lookupSessions, hn] at h ⊢
      exact ih h

theorem heapGet_heapUpdate_self (h : List Session) (p : Nat)
    (f : Session → Session) (hp : p < h.length) :
    heapGet (heapUpdate h p f) p = f (heapGet h p) := by
  induction h generalizing p with
  | nil => simp at hp
  | cons x t ih =>
    cases p with
    | zero => simp [heapUpdate, heapGet]
    | succ n =>
      simp only [heapUpdate, heapGet]
      exact ih n (by simpa using hp)

theorem errStep_foldl_pos (m : MultiError) (s : String) (n : Nat) :
    m.foldl errStep (s, n + 1) = (s, n + 1 + (m.filterMap id).length) := by
  induction m generalizing n with
  | nil => simp
  | cons e t ih =>
    cases e with
    | none => simpa [errStep] using ih n
    | some msg =>
      have h1 : errStep (s, n + 1) (some msg) = (s, n + 1 + 1) := by
        simp [errStep]
      rw [List.foldl_cons, h1, ih (n + 1)]
      show (s, n + 1 + 1 + (List.filterMap id t).length)
        = (s, n + 1 + ((List.filterMap id t).length + 1))
      exact congrArg (Prod.mk s) (by omega)

theorem errStep_foldl_zero (m : MultiError) (s₀ : String) :
    m.foldl errStep (s₀, 0) =
      (match m.filterMap id with
       | [] => (s₀, 0)
       | h :: t => (h, t.length + 1)) := by
  induction m with
  | nil => simp
  | cons e t ih =>
    cases e with
    | none => simpa [errStep] using ih
    | some msg =>
      have h1 : errStep (s₀, 0) (some msg) = (msg, 0 + 1) := by
        simp [errStep]
      rw [List.foldl_cons, h1, errStep_foldl_pos t msg 0]
      show (msg, 0 + 1 + (List.filterMap id t).length)
        = (msg, (List.filterMap id t).length + 1)
      exact congrArg (Prod.mk msg) (by omega)

theorem saveStep_foldl (env : StoreId → StoreBehavior) (heap : List Session)
    (l : List (String × sessionInfo)) (a : List String) (b : List Nat) :
    l.foldl (saveStep env heap) (a, b) =
      (a ++ l.filterMap (saveFailure env heap),
       b ++ (l.filter (fun e => (heapGet heap e.2.s).store.isSome)).map
         (fun e => e.2.s)) := by
  induction l generalizing a b with
  | nil => simp
  | cons e t ih =>
    obtain ⟨name, info⟩ := e
    rw [List.foldl_cons]
    cases hst : (heapGet heap info.s).store with
    | none =>
      have h1 : saveStep env heap (a, b) (name, info) =
          (a ++ ["sessions: missing store for session " ++ goQuote name], b) := by
        simp [saveStep, hst]
      rw [h1, ih]
      simp [saveFailure, hst, List.filter_cons]
    | some sid =>
      cases hsv : (env sid).save (heapGet heap info.s) with
      | none =>
        have h1 : saveStep env heap (a, b) (name, info) = (a, b ++ [info.s]) := by
          simp [saveStep, hst, hsv]
        rw [h1, ih]
        simp [saveFailure, hst, hsv, List.filter_cons]
      | some msg =>
        have h1 : saveStep env heap (a, b) (name, info) =
            (a ++ ["sessions: error saving session " ++ goQuote name ++ " -- " ++ msg],
             b ++ [info.s]) := by
          simp [saveStep, hst, hsv]
        rw [h1, ih]
        simp [saveFailure, hst, hsv, List.filter_cons]


/-! ### Claim theorems -/

/-- C3: Rendering a composite multi-error skips nil slots and produces
"(0 errors)" for zero non-nil components, the single message verbatim for
one, the first message plus " (and 1 other error)" for two, and the first
message plus " (and N-1 other errors)" for N ≥ 3 non-nil components. -/
theorem MultiError_Error_rendering (m : MultiError) :
    MultiError.Error m =
      match m.filterMap id with
      | [] => "(0 errors)"
      | [e] => e
      | e :: rest =>
        if rest.length = 1 then e ++ " (and 1 other error)"
        else e ++ " (and " ++ toString rest.length ++ " other errors)" := by
  unfold MultiError.Error
  rw [errStep_foldl_zero m ""]
  cases hm : m.filterMap id with
  | nil => rfl
  | cons e rest =>
    cases rest with
    | nil => rfl
    | cons e2 rest2 =>
      cases rest2 with
      | nil => rfl
      | cons e3 rest3 => rfl

/-- C7: immediately after `Set(k, v)`, `Get k` returns `v`; immediately
after `Delete(k)`, `Get k` returns the nil interface value (the map's
absent value). `Session.Get` is a pure read by construction: it takes the
session and returns only a value, so it can change neither the stored
values nor the dirty flag. -/
theorem Session_Get_Set_Delete (s : Session) (k : GoKey) (v : GoValue) :
    (s.Set k v).Get k = v ∧ (s.Delete k).Get k = GoValue.vNil := by
  constructor
  · simp [Session.Get, Session.Set, lookupValues_insertValues_self]
  · simp [Session.Get, Session.Delete, lookupValues_eraseValues_self]

/-- C2: `Registry.Save` iterates every tracked entry and continues past
failures: a missing-store entry records the "missing store" failure, a
failing `store.Save` records the descriptive per-name failure, every
store-bound session's `store.Save` is still invoked, and the result
aggregates every failure (nil when there are none). -/
theorem Registry_Save_aggregates (env : StoreId → StoreBehavior) (r : Registry) :
    Registry.Save env r =
      ((if r.sessions.filterMap (saveFailure env r.heap) = [] then none
        else some (r.sessions.filterMap (saveFailure env r.heap))),
       (r.sessions.filter (fun e => (heapGet r.heap e.2.s).store.isSome)).map
         (fun e => e.2.s))
    ∧ ((Registry.Save env r).1 = none ↔
        ∀ e ∈ r.sessions, saveFailure env r.heap e = none)
    ∧ (∀ e ∈ r.sessions, (heapGet r.heap e.2.s).store = none →
        saveFailure env r.heap e =
          some ("sessions: missing store for session " ++ goQuote e.1))
    ∧ (∀ e ∈ r.sessions, ∀ sid msg, (heapGet r.heap e.2.s).store = some sid →
        (env sid).save (heapGet r.heap e.2.s) = some msg →
        saveFailure env r.heap e =
          some ("sessions: error saving session " ++ goQuote e.1 ++ " -- " ++ msg)) := by
  have h1 : Registry.Save env r =
      ((if r.sessions.filterMap (saveFailure env r.heap) = [] then none
        else some (r.sessions.filterMap (saveFailure env r.heap))),
       (r.sessions.filter (fun e => (heapGet r.heap e.2.s).store.isSome)).map
         (fun e => e.2.s)) := by
    unfold Registry.Save
    rw [saveStep_foldl]
    by_cases hnil : r.sessions.filterMap (saveFailure env r.heap) = []
    · simp [hnil]
    · simp [hnil]
  refine ⟨h1, ?_, ?_, ?_⟩
  · rw [h1]
    by_cases hnil : r.sessions.filterMap (saveFailure env r.heap) = []
    · simp only [hnil, if_pos rfl]
      simpa using (List.filterMap_eq_nil_iff.mp hnil)
    · simp only [hnil, if_neg hnil]
      constructor
      · intro hcontra
        exact absurd hcontra (by simp)
      · intro hall
        exact absurd (List.filterMap_eq_nil_iff.mpr hall) hnil
  · intro e he hst
    simp [saveFailure, hst]
  · intro e he sid msg hst hsv
    simp [saveFailure, hst, hsv]

/-- Witness for C2 at the registry of `regW`: the missing-store entry and
the failing store each record their failure, the aggregate holds both, and
the store-bound sessions (pointers 1 and 2) both had `store.Save` invoked. -/
theorem Registry_Save_aggregates_witness :
    Registry.Save envW regW =
      (some ["sessions: missing store for session \"a\"",
             "sessions: error saving session \"b\" -- save failed"],
       [1, 2]) :=
  (Registry_Save_aggregates envW regW).1.trans (by rfl)

/-- A cache hit in `Registry.Get`: the tracked entry's session pointer and
cached error are returned, `store.New` is not called, and the session's
store is rebound to the passed-in store. -/
theorem Registry_Get_hit (env : StoreId → StoreBehavior) (r : Registry)
    (store : StoreId) (name : String) (info : sessionInfo)
    (h : lookupSessions r.sessions name = some info) :
    Registry.Get env r store name =
      { session := info.s, err := info.e,
        state := { r with
          heap := heapUpdate r.heap info.s (fun x => { x with store := some store }) },
        calledNew := false } := by
  unfold Registry.Get
  rw [h]

/-- A cache miss in `Registry.Get`: `store.New` runs, the fresh session is
allocated, named, store-bound, and recorded (with its creation error). -/
theorem Registry_Get_miss (env : StoreId → StoreBehavior) (r : Registry)
    (store : StoreId) (name : String)
    (h : lookupSessions r.sessions name = none) :
    Registry.Get env r store name =
      { session := r.heap.length, err := ((env store).new name).2,
        state :=
          { sessions := r.sessions ++
              [(name, { s := r.heap.length, e := ((env store).new name).2 })],
            heap := heapUpdate
              (r.heap ++ [{ ((env store).new name).1 with name := name }])
              r.heap.length (fun x => { x with store := some store }) },
        calledNew := true } := by
  unfold Registry.Get
  rw [h]

/-- C1: repeated `Registry.Get` calls with the same name return the
identical session pointer and the identical cached creation error, the
second call never invokes `store.New`, and for an untracked name the first
call invokes it (so exactly once over both calls) — including when that
first `store.New` returned an error: the failure is cached, not retried. -/
theorem Registry_Get_cached (env : StoreId → StoreBehavior) (r : Registry)
    (store : StoreId) (name : String) :
    (Registry.Get env (Registry.Get env r store name).state store name).session
      = (Registry.Get env r store name).session
    ∧ (Registry.Get env (Registry.Get env r store name).state store name).err
      = (Registry.Get env r store name).err
    ∧ (Registry.Get env (Registry.Get env r store name).state store name).calledNew
      = false
    ∧ (lookupSessions r.sessions name = none →
        (Registry.Get env r store name).calledNew = true) := by
  cases h : lookupSessions r.sessions name with
  | some info =>
    rw [Registry_Get_hit env r store name info h]
    dsimp only
    rw [Registry_Get_hit env
      { sessions := r.sessions,
        heap := heapUpdate r.heap info.s (fun x => { x with store := some store }) }
      store name info h]
    exact ⟨rfl, rfl, rfl, fun hc => Option.noConfusion hc⟩
  | none =>
    rw [Registry_Get_miss env r store name h]
    dsimp only
    have h2 := lookupSessions_append_none r.sessions name
      { s := r.heap.length, e := ((env store).new name).2 } h
    rw [Registry_Get_hit env
      { sessions := r.sessions ++
          [(name, { s := r.heap.length, e := ((env store).new name).2 })],
        heap := heapUpdate (r.heap ++ [{ ((env store).new name).1 with name := name }])
          r.heap.length (fun x => { x with store := some store }) }
      store name { s := r.heap.length, e := ((env store).new name).2 } h2]
    exact ⟨rfl, rfl, rfl, fun _ => rfl⟩

/-- Witness for C1: on a fresh registry with a store whose `New` fails, the
first `Get` calls `New` and caches the failure; the second `Get` does not
call `New` and returns the identical session pointer and cached error. -/
theorem Registry_Get_cached_witness :
    (Registry.Get envFail reg0 0 "sess").calledNew = true
    ∧ (Registry.Get envFail reg0 0 "sess").err = some "store broken"
    ∧ (Registry.Get envFail (Registry.Get envFail reg0 0 "sess").state 0 "sess").calledNew
        = false
    ∧ (Registry.Get envFail (Registry.Get envFail reg0 0 "sess").state 0 "sess").err
        = (Registry.Get envFail reg0 0 "sess").err
    ∧ (Registry.Get envFail (Registry.Get envFail reg0 0 "sess").state 0 "sess").session
        = (Registry.Get envFail reg0 0 "sess").session :=
  ⟨(Registry_Get_cached envFail reg0 0 "sess").2.2.2 rfl, by rfl,
   (Registry_Get_cached envFail reg0 0 "sess").2.2.1,
   (Registry_Get_cached envFail reg0 0 "sess").2.1,
   (Registry_Get_cached envFail reg0 0 "sess").1⟩

/-- C8: on a cache hit, `Registry.Get` rebinds the tracked session's store
to the store passed into this call, while the session's identity (pointer),
its cached creation error, its accumulated values, and the tracked-name map
are unchanged, and `store.New` is not invoked. -/
theorem Registry_Get_rebinds (env : StoreId → StoreBehavior) (r : Registry)
    (store : StoreId) (name : String) (info : sessionInfo)
    (h : lookupSessions r.sessions name = some info)
    (hp : info.s < r.heap.length) :
    (Registry.Get env r store name).session = info.s
    ∧ (Registry.Get env r store name).err = info.e
    ∧ (Registry.Get env r store name).calledNew = false
    ∧ (Registry.Get env r store name).state.sessions = r.sessions
    ∧ heapGet (Registry.Get env r store name).state.heap info.s
        = { heapGet r.heap info.s with store := some store }
    ∧ (heapGet (Registry.Get env r store name).state.heap info.s).Values
        = (heapGet r.heap info.s).Values := by
  rw [Registry_Get_hit env r store name info h]
  refine ⟨rfl, rfl, rfl, rfl, ?_, ?_⟩
  · exact heapGet_heapUpdate_self r.heap info.s _ hp
  · rw [heapGet_heapUpdate_self r.heap info.s _ hp]

/-- Witness for C8: the session of `regOne` is bound to store 5; a `Get`
passing store 7 rebinds it to 7 while leaving pointer, error, values and
the tracked map unchanged. -/
theorem Registry_Get_rebinds_witness :
    (Registry.Get envFail regOne 7 "a").session = 0
    ∧ (Registry.Get envFail regOne 7 "a").err = none
    ∧ (Registry.Get envFail regOne 7 "a").calledNew = false
    ∧ (Registry.Get envFail regOne 7 "a").state.sessions = regOne.sessions
    ∧ heapGet (Registry.Get envFail regOne 7 "a").state.heap 0
        = { heapGet regOne.heap 0 with store := some 7 }
    ∧ (heapGet (Registry.Get envFail regOne 7 "a").state.heap 0).Values
        = (heapGet regOne.heap 0).Values :=
  Registry_Get_rebinds envFail regOne 7 "a" { s := 0, e := none } rfl (by decide)

/-- C6: flashes come back in insertion order and are consumed: after two
`AddFlash` calls under a key, `Flashes` for that key returns `[v1, v2]` and
clears the sequence, so an immediately following `Flashes` returns empty;
`Flashes` on a key with no stored flashes returns empty; and distinct flash
keys are isolated (flashes under one key are invisible to the other). -/
theorem Session_flash_sequence (s : Session) (key other : String)
    (v1 v2 : GoValue)
    (hk : lookupValues s.Values (GoKey.kStr key) = none)
    (ho : lookupValues s.Values (GoKey.kStr other) = none)
    (hne : key ≠ other) :
    ∃ s1 s2 s3,
      s.AddFlash v1 [key] = some s1
      ∧ s1.AddFlash v2 [key] = some s2
      ∧ s2.Flashes [key] = some ([v1, v2], s3)
      ∧ s3.Flashes [key] = some ([], s3)
      ∧ s2.Flashes [other] = some ([], s2)
      ∧ s.Flashes [key] = some ([], s) := by
  have hko : GoKey.kStr other ≠ GoKey.kStr key := by
    simpa using Ne.symm hne
  refine ⟨{ s with
      Values := insertValues s.Values (GoKey.kStr key) (GoValue.vSlice [v1]) },
    { s with
      Values := insertValues
        (insertValues s.Values (GoKey.kStr key) (GoValue.vSlice [v1]))
        (GoKey.kStr key) (GoValue.vSlice [v1, v2]) },
    { s with
      Values := eraseValues (insertValues
        (insertValues s.Values (GoKey.kStr key) (GoValue.vSlice [v1]))
        (GoKey.kStr key) (GoValue.vSlice [v1, v2])) (GoKey.kStr key) },
    ?_, ?_, ?_, ?_, ?_, ?_⟩
  · simp [Session.AddFlash, flashKey, hk]
  · simp [Session.AddFlash, flashKey, lookupValues_insertValues_self]
  · simp [Session.Flashes, flashKey, lookupValues_insertValues_self]
  · simp [Session.Flashes, flashKey, lookupValues_eraseValues_self]
  · simp [Session.Flashes, flashKey,
      lookupValues_insertValues_ne _ _ _ _ hko, ho]
  · simp [Session.Flashes, flashKey, hk]

/-- Witness for C6 on a fresh session with keys "a" and "b". -/
theorem Session_flash_sequence_witness :
    ∃ s1 s2 s3,
      (NewSession none "x").AddFlash (GoValue.vInt 1) ["a"] = some s1
      ∧ s1.AddFlash (GoValue.vInt 2) ["a"] = some s2
      ∧ s2.Flashes ["a"] = some ([GoValue.vInt 1, GoValue.vInt 2], s3)
      ∧ s3.Flashes ["a"] = some ([], s3)
      ∧ s2.Flashes ["b"] = some ([], s2)
      ∧ (NewSession none "x").Flashes ["a"] = some ([], NewSession none "x") :=
  Session_flash_sequence (NewSession none "x") "a" "b"
    (GoValue.vInt 1) (GoValue.vInt 2) rfl rfl (by decide)

/-- C9: on a dirty session, every core operation leaves `dirty` true (the
flag is monotonic) and leaves `name` unchanged; `Session.Save` delegates to
`store.Save` and clears nothing. -/
theorem Session_dirty_monotone_name_immutable (env : StoreId → StoreBehavior)
    (s : Session) (k : GoKey) (v w : GoValue) (vars : List String)
    (h : s.dirty = true) :
    (s.Set k v).dirty = true
    ∧ (s.Set k v).name = s.name
    ∧ (s.Delete k).dirty = true
    ∧ (s.Delete k).name = s.name
    ∧ (∀ s', s.AddFlash w vars = some s' → s'.dirty = true ∧ s'.name = s.name)
    ∧ (∀ fl s', s.Flashes vars = some (fl, s') →
        s'.dirty = true ∧ s'.name = s.name)
    ∧ (∀ res s', Session.Save env s = some (res, s') →
        s'.dirty = true ∧ s'.name = s.name)
    ∧ (∀ sid, s.store = some sid →
        Session.Save env s = some ((env sid).save s, s)) := by
  refine ⟨rfl, rfl, rfl, rfl, ?_, ?_, ?_, ?_⟩
  · intro s' hs'
    unfold Session.AddFlash at hs'
    cases hl : lookupValues s.Values (GoKey.kStr (flashKey vars)) with
    | none =>
      rw [hl] at hs'
      simp at hs'
      subst hs'
      exact ⟨h, rfl⟩
    | some gv =>
      rw [hl] at hs'
      cases gv <;> simp at hs'
      subst hs'
      exact ⟨h, rfl⟩
  · intro fl s' hs'
    unfold Session.Flashes at hs'
    cases hl : lookupValues s.Values (GoKey.kStr (flashKey vars)) with
    | none =>
      rw [hl] at hs'
      simp at hs'
      obtain ⟨-, h2⟩ := hs'
      subst h2
      exact ⟨h, rfl⟩
    | some gv =>
      rw [hl] at hs'
      cases gv <;> simp at hs'
      obtain ⟨-, h2⟩ := hs'
      subst h2
      exact ⟨h, rfl⟩
  · intro res s' hs'
    unfold Session.Save at hs'
    cases hst : s.store with
    | none =>
      rw [hst] at hs'
      exact Option.noConfusion hs'
    | some sid =>
      rw [hst] at hs'
      simp at hs'
      obtain ⟨-, h2⟩ := hs'
      subst h2
      exact ⟨h, rfl⟩
  · intro sid hst
    unfold Session.Save
    rw [hst]

/-- Witness for C9 at a session made dirty by a `Set`. -/
theorem Session_dirty_monotone_name_immutable_witness :
    (dirtySession.Set (GoKey.kStr "k2") (GoValue.vInt 3)).dirty = true
    ∧ (dirtySession.Set (GoKey.kStr "k2") (GoValue.vInt 3)).name = dirtySession.name
    ∧ (dirtySession.Delete (GoKey.kStr "k2")).dirty = true
    ∧ (dirtySession.Delete (GoKey.kStr "k2")).name = dirtySession.name
    ∧ (∀ s', dirtySession.AddFlash (GoValue.vInt 4) ["f"] = some s' →
        s'.dirty = true ∧ s'.name = dirtySession.name)
    ∧ (∀ fl s', dirtySession.Flashes ["f"] = some (fl, s') →
        s'.dirty = true ∧ s'.name = dirtySession.name)
    ∧ (∀ res s', Session.Save envFail dirtySession = some (res, s') →
        s'.dirty = true ∧ s'.name = dirtySession.name)
    ∧ (∀ sid, dirtySession.store = some sid →
        Session.Save envFail dirtySession
          = some ((envFail sid).save dirtySession, dirtySession)) :=
  Session_dirty_monotone_name_immutable envFail dirtySession
    (GoKey.kStr "k2") (GoValue.vInt 3) (GoValue.vInt 4) ["f"] rfl

/-- C10: `Flashes` and `AddFlash` cast the value stored under the flash key
with an unchecked type assertion: when a non-sequence value was stored there
via `Set`, both calls abort (panic, modelled as `none`); they return
normally precisely when the key is absent or holds a flash sequence. -/
theorem Session_flash_cast_unsafe (s : Session) (key : String) (v w : GoValue)
    (hv : ∀ l, v ≠ GoValue.vSlice l) :
    ((s.Set (GoKey.kStr key) v).Flashes [key] = none
      ∧ (s.Set (GoKey.kStr key) v).AddFlash w [key] = none)
    ∧ (lookupValues s.Values (GoKey.kStr key) = none →
        (s.Flashes [key]).isSome ∧ (s.AddFlash w [key]).isSome)
    ∧ (∀ l, lookupValues s.Values (GoKey.kStr key) = some (GoValue.vSlice l) →
        (s.Flashes [key]).isSome ∧ (s.AddFlash w [key]).isSome) := by
  refine ⟨⟨?_, ?_⟩, ?_, ?_⟩
  · unfold Session.Flashes Session.Set
    rw [show flashKey [key] = key from rfl,
      lookupValues_insertValues_self s.Values (GoKey.kStr key) v]
    cases v with
    | vSlice l => exact absurd rfl (hv l)
    | vNil => rfl
    | vStr a => rfl
    | vInt a => rfl
    | vBool a => rfl
  · unfold Session.AddFlash Session.Set
    rw [show flashKey [key] = key from rfl,
      lookupValues_insertValues_self s.Values (GoKey.kStr key) v]
    cases v with
    | vSlice l => exact absurd rfl (hv l)
    | vNil => rfl
    | vStr a => rfl
    | vInt a => rfl
    | vBool a => rfl
  · intro hnone
    constructor
    · simp [Session.Flashes, flashKey, hnone]
    · simp [Session.AddFlash, flashKey, hnone]
  · intro l hl
    constructor
    · simp [Session.Flashes, flashKey, hl]
    · simp [Session.AddFlash, flashKey, hl]

/-- Witness for C10: a string stored under "k" via `Set` makes `Flashes`
and `AddFlash` for "k" panic; on the untouched default key they return. -/
theorem Session_flash_cast_unsafe_witness :
    (((NewSession none "x").Set (GoKey.kStr "k") (GoValue.vStr "oops")).Flashes ["k"]
        = none
      ∧ ((NewSession none "x").Set (GoKey.kStr "k") (GoValue.vStr "oops")).AddFlash
          GoValue.vNil ["k"] = none)
    ∧ (lookupValues (NewSession none "x").Values (GoKey.kStr "k") = none →
        ((NewSession none "x").Flashes ["k"]).isSome
          ∧ ((NewSession none "x").AddFlash GoValue.vNil ["k"]).isSome)
    ∧ (∀ l, lookupValues (NewSession none "x").Values (GoKey.kStr "k")
          = some (GoValue.vSlice l) →
        ((NewSession none "x").Flashes ["k"]).isSome
          ∧ ((NewSession none "x").AddFlash GoValue.vNil ["k"]).isSome) :=
  Session_flash_cast_unsafe (NewSession none "x") "k" (GoValue.vStr "oops")
    GoValue.vNil (fun _ h => GoValue.noConfusion h)

/-- C4 (code bug): at a fresh session, `Set` and `Delete` mark it dirty,
but `AddFlash` leaves `dirty` false — the source omits the dirty-marking
for `AddFlash`, so a session mutated only by `AddFlash` is not flushed. -/
theorem addFlash_leaves_dirty_false :
    ((NewSession none "s").Set (GoKey.kStr "k") (GoValue.vStr "v")).dirty = true
    ∧ ((NewSession none "s").Delete (GoKey.kStr "k")).dirty = true
    ∧ (NewSession none "s").dirty = false
    ∧ ((NewSession none "s").AddFlash (GoValue.vStr "m") []).map Session.dirty
        = some false :=
  ⟨rfl, rfl, rfl, rfl⟩

/-- C5 (code bug): consuming a non-empty flash sequence with `Flashes`
leaves `dirty` false on a session never touched by `Set`/`Delete` — the
source does not treat a consuming `Flashes` as a mutation, so the
consumption is never persisted. -/
theorem flashes_leaves_dirty_false :
    ((NewSession none "s").AddFlash (GoValue.vStr "m") []).bind
        (fun s1 => (s1.Flashes []).map (fun p => (p.1, p.2.dirty)))
      = some ([GoValue.vStr "m"], false) := rfl

end GoFloki
